import Mathlib

/-!
Shallow embedding of the StudyBuddy matchmaking server (server code in the
repository): the in-memory storage backend, the wait queue, tag scoring,
the matchmaker, content moderation, and the message handlers.

Conventions of the embedding:
* JavaScript arrays become `List`; `Array.push` appends at the back,
  `Array.pop` removes at the back, `Array.splice(i, 1)` after `findIndex`
  removes the first matching element.
* The Redis queue primitives are embedded separately: `lPush` prepends at the
  head of the list, `rPop` removes at the tail.
* `uuidv4()` and `Date.now()` are nondeterministic inputs, so handlers take
  them as explicit parameters.
* The in-memory `blockedPairs` set of `"a:b"` strings is embedded as a list of
  id pairs; only membership in either direction is ever consulted.
* The third-party profanity cleaner (`bad-words`) is external to the
  repository, so `moderateContent` is parametrised by the cleaning function.
-/

namespace StudyBuddy

/-- A user as supplied by the client: an opaque id and a list of interest tags. -/
structure User where
  id : String
  tags : List String
deriving DecidableEq, Repr

/-- A chat message stored in a session. -/
structure Message where
  id : String
  content : String
  userId : String
  timestamp : Nat
  type : String
deriving DecidableEq, Repr

/-- The video-request record stored on a session (`session.videoRequested`). -/
structure VideoRequest where
  requesterId : String
  status : String
deriving DecidableEq, Repr

/-- A study session between two matched users. -/
structure Session where
  id : String
  users : List User
  sharedTags : List String
  createdAt : Nat
  messages : List Message
  videoRequested : Option VideoRequest
deriving DecidableEq, Repr

/-- Per-connection state held in the `clients` map. -/
structure ClientState where
  userId : Option String
  sessionId : Option String
deriving DecidableEq, Repr

/-- A report record appended by `POST /api/report`. -/
structure Report where
  id : String
  sessionId : String
  reason : String
  messages : List Message
  timestamp : Nat
  ip : String
deriving DecidableEq, Repr

/-- Result record of `moderateContent`. -/
structure Moderated where
  content : String
  flagged : Bool
  original : String
deriving DecidableEq, Repr

/-- In-memory `addToQueue`: `memoryStore.queue.push(user)` appends at the back. -/
def addToQueue (user : User) (q : List User) : List User := q ++ [user]

/-- In-memory `getFromQueue`: `memoryStore.queue.pop()` removes and returns the
back element (`undefined`, i.e. `none`, on an empty queue). -/
def getFromQueue (q : List User) : Option User × List User := (q.getLast?, q.dropLast)

/-- Redis-backend `addToQueue`: `lPush('matchingQueue', user)` prepends at the head. -/
def addToQueueRedis (user : User) (q : List User) : List User := user :: q

/-- Redis-backend `getFromQueue`: `rPop('matchingQueue')` removes at the tail. -/
def getFromQueueRedis (q : List User) : Option User × List User := (q.getLast?, q.dropLast)

/-- In-memory `removeFromQueue`: `findIndex(user => user.id === userId)` followed by
`splice(index, 1)` removes the first entry with the given id, if any. -/
def removeFromQueue (userId : String) (q : List User) : List User :=
  match q with
  | [] => []
  | u :: rest => if u.id = userId then rest else u :: removeFromQueue userId rest

/-- JavaScript `new Set(list)` iterated with `[...set]` yields each element once,
keeping the first occurrence in insertion order. -/
def dedupFirst (seen : List String) : List String → List String
  | [] => []
  | a :: l => if a ∈ seen then dedupFirst seen l else a :: dedupFirst (a :: seen) l

/-- `[...new Set(list)]`. -/
def setList (l : List String) : List String := dedupFirst [] l

/-- `s.toLowerCase()`, defined characterwise so it evaluates by kernel reduction. -/
def toLowerCase (s : String) : String := String.mk (s.data.map Char.toLower)

/-- `calculateMatchScore(tags1, tags2)`: the size of the intersection of the two
lowercased tag sets. -/
def calculateMatchScore (tags1 tags2 : List String) : Nat :=
  ((setList (tags1.map toLowerCase)).filter
    (fun t => decide (t ∈ setList (tags2.map toLowerCase)))).length

/-- `getSharedTags(tags1, tags2)`: the shared lowercased tags, then the elements of
`tags1` whose lowercased form is among them (original casing preserved). -/
def getSharedTags (tags1 tags2 : List String) : List String :=
  let shared := (setList (tags1.map toLowerCase)).filter
    (fun t => decide (t ∈ setList (tags2.map toLowerCase)))
  tags1.filter (fun tag => decide (toLowerCase tag ∈ shared))

/-- `isBlocked(userId1, userId2)`: the pair is blocked in either direction. -/
def isBlocked (blockedPairs : List (String × String)) (userId1 userId2 : String) : Bool :=
  decide ((userId1, userId2) ∈ blockedPairs) || decide ((userId2, userId1) ∈ blockedPairs)

/-- The bounded `for` loop inside `findMatch`, with `fuel` the queue length read
before the loop. Each iteration pops one entry; self-matches and blocked pairs
are pushed back, zero-score entries are pushed back, positive-score entries are
held in `ms` (and, as in the source, never pushed back). -/
def drainLoop (blockedPairs : List (String × String)) (user : User) :
    Nat → List User → List (User × Nat) → List User × List (User × Nat)
  | 0, q, ms => (q, ms)
  | fuel + 1, q, ms =>
    match (getFromQueue q).1 with
    | none => (q, ms)
    | some pm =>
      if pm.id = user.id ∨ isBlocked blockedPairs user.id pm.id = true then
        drainLoop blockedPairs user fuel (addToQueue pm (getFromQueue q).2) ms
      else if 0 < calculateMatchScore user.tags pm.tags then
        drainLoop blockedPairs user fuel (getFromQueue q).2
          (ms ++ [(pm, calculateMatchScore user.tags pm.tags)])
      else
        drainLoop blockedPairs user fuel (addToQueue pm (getFromQueue q).2) ms

/-- `matches.sort((a, b) => b.score - a.score)` is a stable descending sort, so
`matches[0]` afterwards is the first element attaining the maximal score;
`chooseBest` computes that element directly. -/
def chooseBest : List (User × Nat) → Option (User × Nat)
  | [] => none
  | m :: ms => some (ms.foldl (fun best x => if best.2 < x.2 then x else best) m)

/-- `findMatch(user)`: drain up to `queueLength()` entries, then return the held
candidate with the highest score, if any, together with the queue it leaves behind. -/
def findMatch (blockedPairs : List (String × String)) (user : User) (q : List User) :
    Option User × List User :=
  match chooseBest (drainLoop blockedPairs user q.length q []).2 with
  | some p => (some p.1, (drainLoop blockedPairs user q.length q []).1)
  | none => (none, (drainLoop blockedPairs user q.length q []).1)

/-- JavaScript `\w`: ASCII letters, digits and underscore. -/
def isWordChar (c : Char) : Bool := c.isAlpha || c.isDigit || c = '_'

/-- Word-character test on an optional character; an edge of the string counts
as a non-word character. -/
def isWordOpt : Option Char → Bool
  | some c => isWordChar c
  | none => false

/-- JavaScript `\b`: a word boundary between two (optional) characters. -/
def bnd (a b : Option Char) : Bool := isWordOpt a != isWordOpt b

/-- Consume exactly `n` ASCII digits (`\d{n}`). -/
def takeDigits : Nat → List Char → Option (List Char)
  | 0, l => some l
  | _ + 1, [] => none
  | n + 1, c :: l => if c.isDigit then takeDigits n l else none

/-- The two ways `[-.]?` can consume input: take the separator if present, or skip it. -/
def sepOpts : List Char → List (List Char)
  | [] => [[]]
  | c :: rest => if c == '-' || c == '.' then [rest, c :: rest] else [c :: rest]

/-- Word boundary after a just-consumed word character. -/
def afterWordBnd (l : List Char) : Bool := !isWordOpt l.head?

/-- Match of `\b\d{3}[-.]?\d{3}[-.]?\d{4}\b` starting at `l` (with `prev` the
character before `l`). -/
def phoneFrom (prev : Option Char) (l : List Char) : Bool :=
  bnd prev l.head? &&
    (match takeDigits 3 l with
     | none => false
     | some l1 =>
       (sepOpts l1).any fun l2 =>
         match takeDigits 3 l2 with
         | none => false
         | some l3 =>
           (sepOpts l3).any fun l4 =>
             match takeDigits 4 l4 with
             | none => false
             | some l5 => afterWordBnd l5)

/-- Character class `[A-Za-z0-9._%+-]` of the email local part. -/
def localChar (c : Char) : Bool :=
  c.isAlpha || c.isDigit || c == '.' || c == '_' || c == '%' || c == '+' || c == '-'

/-- Character class `[A-Za-z0-9.-]` of the email domain part. -/
def domainChar (c : Char) : Bool := c.isAlpha || c.isDigit || c == '.' || c == '-'

/-- Character class `[A-Z|a-z]` of the email top-level-domain part (the source
regex literally includes `|` in the class). -/
def tldChar (c : Char) : Bool := c.isAlpha || c == '|'

/-- After at least two TLD characters (the most recent being `last`): either stop
here at a word boundary, or consume one more TLD character. -/
def emailTldMore (last : Char) : List Char → Bool
  | [] => bnd (some last) none
  | c :: rest => bnd (some last) (some c) || (tldChar c && emailTldMore c rest)

/-- `[A-Z|a-z]{2,}\b` from the current position. -/
def emailTldStart : List Char → Bool
  | c1 :: c2 :: rest => tldChar c1 && tldChar c2 && emailTldMore c2 rest
  | _ => false

/-- After at least one domain character: either the literal `.` followed by the
TLD, or one more domain character. -/
def emailDomainMore : List Char → Bool
  | [] => false
  | c :: rest => (c == '.' && emailTldStart rest) || (domainChar c && emailDomainMore rest)

/-- `[A-Za-z0-9.-]+\.[A-Z|a-z]{2,}\b` from the position just after `@`. -/
def emailAfterAt : List Char → Bool
  | [] => false
  | c :: rest => domainChar c && emailDomainMore rest

/-- After at least one local-part character: either `@` followed by the domain,
or one more local-part character. -/
def emailLocalMore : List Char → Bool
  | [] => false
  | c :: rest => (c == '@' && emailAfterAt rest) || (localChar c && emailLocalMore rest)

/-- Match of `\b[A-Za-z0-9._%+-]+@[A-Za-z0-9.-]+\.[A-Z|a-z]{2,}\b` starting at `l`. -/
def emailFrom (prev : Option Char) (l : List Char) : Bool :=
  match l with
  | [] => false
  | c :: rest => bnd prev (some c) && localChar c && emailLocalMore rest

/-- After at least one non-whitespace URL character `last`: either stop at a word
boundary or consume one more non-whitespace character. -/
def urlTail (last : Char) : List Char → Bool
  | [] => bnd (some last) none
  | c :: rest => bnd (some last) (some c) || (!c.isWhitespace && urlTail c rest)

/-- `[^\s]+\b` from the position just after `://`. -/
def urlBody : List Char → Bool
  | [] => false
  | c :: rest => !c.isWhitespace && urlTail c rest

/-- Match of `\bhttps?:\/\/[^\s]+\b` starting at `l`. -/
def urlFrom (prev : Option Char) (l : List Char) : Bool :=
  match l with
  | 'h' :: 't' :: 't' :: 'p' :: 's' :: ':' :: '/' :: '/' :: rest => bnd prev (some 'h') && urlBody rest
  | 'h' :: 't' :: 't' :: 'p' :: ':' :: '/' :: '/' :: rest => bnd prev (some 'h') && urlBody rest
  | _ => false

/-- The eight social-platform keywords of the moderation regex, lowercased. -/
def socialKeywords : List (List Char) :=
  ["instagram".data, "snapchat".data, "discord".data, "telegram".data,
   "whatsapp".data, "facebook".data, "twitter".data, "tiktok".data]

/-- Consume a keyword case-insensitively (`i` flag). -/
def dropKw : List Char → List Char → Option (List Char)
  | [], l => some l
  | _ :: _, [] => none
  | k :: ks, c :: rest => if c.toLower == k then dropKw ks rest else none

/-- Match of `\b(?:instagram|...|tiktok)\b` (case-insensitive) starting at `l`. -/
def socialFrom (prev : Option Char) (l : List Char) : Bool :=
  socialKeywords.any fun kw =>
    match dropKw kw l with
    | some rest => bnd prev l.head? && !isWordOpt rest.head?
    | none => false

/-- `pattern.test(s)`: try a match at every starting position, tracking the
previous character for word-boundary tests. -/
def scanFrom (f : Option Char → List Char → Bool) : Option Char → List Char → Bool
  | prev, [] => f prev []
  | prev, c :: rest => f prev (c :: rest) || scanFrom f (some c) rest

/-- The `personalInfoPatterns` loop of `moderateContent`: true when any of the
four patterns (phone, email, URL, social platform) matches the input. -/
def personalInfoMatched (s : String) : Bool :=
  scanFrom phoneFrom none s.data || scanFrom emailFrom none s.data ||
    scanFrom urlFrom none s.data || scanFrom socialFrom none s.data

/-- `moderateContent(content)`, parametrised by the external profanity cleaner
`filter.clean` of the `bad-words` package. -/
def moderateContent (clean : String → String) (content : String) : Moderated :=
  { content := clean content
    flagged := personalInfoMatched content || (clean content != content)
    original := content }

/-- The synthetic system message created with a fresh session. -/
def matchedMessage (msgId : String) (now : Nat) (sharedTags : List String) : Message :=
  { id := msgId
    content := "You\x27ve been matched! You both study: " ++ String.intercalate ", " sharedTags
    userId := "system"
    timestamp := now
    type := "system" }

/-- `handleJoinQueue`, restricted to its effect on the queue and the session it
creates: run `findMatch`; on a hit build the session from the candidate and the
match; on a miss append the candidate to the queue left by `findMatch`.
`sessionId`, `msgId` and `now` stand for `uuidv4()` and `Date.now()`. -/
def handleJoinQueue (blockedPairs : List (String × String)) (sessionId msgId : String)
    (now : Nat) (user : User) (q : List User) : Option Session × List User :=
  match (findMatch blockedPairs user q).1 with
  | some m =>
    (some { id := sessionId
            users := [user, m]
            sharedTags := getSharedTags user.tags m.tags
            createdAt := now
            messages := [matchedMessage msgId now (getSharedTags user.tags m.tags)]
            videoRequested := none },
     (findMatch blockedPairs user q).2)
  | none => (none, (findMatch blockedPairs user q).2 ++ [user])

/-- `handleLeaveQueue`: returns the (unchanged) client record, the new queue, and
whether a `queue_left {success: true}` response was sent. The handler returns
early, sending nothing, when the connection is unknown or has no `userId`. -/
def handleLeaveQueue (client : Option ClientState) (q : List User) :
    Option ClientState × List User × Bool :=
  match client with
  | none => (none, q, false)
  | some cl =>
    match cl.userId with
    | none => (some cl, q, false)
    | some uid => (some cl, removeFromQueue uid q, true)

/-- The 60-second matching timeout callback: it emits the `MATCHING_TIMEOUT`
error exactly when the connection is still registered and has no `sessionId`. -/
def matchingTimeoutFires : Option ClientState → Bool
  | some c => c.sessionId.isNone
  | none => false

/-- `handleChatMessage`, restricted to a live session: moderate, build the stored
message (payload fields with content and timestamp overridden), append it to the
session, and name the peer the message is forwarded to. -/
def handleChatMessage (clean : String → String) (now : Nat) (session : Session)
    (senderId : String) (payload : Message) : Session × Message × Option String :=
  let moderated := moderateContent clean payload.content
  let message := { payload with content := moderated.content, timestamp := now }
  ({ session with messages := session.messages ++ [message] },
   message,
   (session.users.find? (fun u => u.id != senderId)).map User.id)

/-- `handleVideoRequest`, restricted to a live session: unconditionally store
`{requesterId, status: 'pending'}` and forward `{requesterId, offer}` to the peer. -/
def handleVideoRequest (session : Session) (requesterId offer : String) :
    Session × (String × String) :=
  ({ session with videoRequested := some { requesterId := requesterId, status := "pending" } },
   (requesterId, offer))

/-- `POST /api/report`: build the report (missing `messages` defaults to `[]`),
append it to the stored list, respond `{success: true}`. The session id is never
looked up. -/
def postReport (reportId : String) (now : Nat) (reqIp : String) (sessionId reason : String)
    (messages : Option (List Message)) (reports : List Report) : List Report × Bool :=
  (reports ++ [{ id := reportId
                 sessionId := sessionId
                 reason := reason
                 messages := messages.getD []
                 timestamp := now
                 ip := reqIp }],
   true)

/-- Concrete candidate for the matchmaker loss scenario. -/
def uC1 : User := { id := "u0", tags := ["a", "b"] }

/-- Concrete queue entry with score 1 against `uC1`. -/
def e1C1 : User := { id := "e1", tags := ["a"] }

/-- Concrete queue entry with score 2 against `uC1`. -/
def e2C1 : User := { id := "e2", tags := ["a", "b"] }

/-- Concrete user for the duplicate-entry scenario. -/
def uC5 : User := { id := "u1", tags := ["x"] }

/-- Concrete session that already has a pending video request from user A. -/
def sessionC6 : Session :=
  { id := "s6"
    users := [{ id := "A", tags := [] }, { id := "B", tags := [] }]
    sharedTags := []
    createdAt := 0
    messages := []
    videoRequested := some { requesterId := "A", status := "pending" } }

/-- Concrete candidate for the no-self/no-blocked witness. -/
def uC2 : User := { id := "u", tags := ["a"] }

/-- Concrete queue entry matched by `uC2`. -/
def eC2 : User := { id := "e", tags := ["a"] }

/-- Concrete joining user for the session-creation witness. -/
def uC3 : User := { id := "u", tags := ["a"] }

/-- Concrete waiting user matched by `uC3`. -/
def vC3 : User := { id := "v", tags := ["a"] }

/-- The session `handleJoinQueue` creates from `uC3` and `vC3`. -/
def sessionC3 : Session :=
  { id := "s"
    users := [uC3, vC3]
    sharedTags := ["a"]
    createdAt := 0
    messages := [matchedMessage "m" 0 ["a"]]
    videoRequested := none }

/-- Connection state of a user who joined the queue and was not yet matched. -/
def clC7 : ClientState := { userId := some "u1", sessionId := none }

/-- Connection state with a `userId` for the leave-queue witness. -/
def clC8 : ClientState := { userId := some "u1", sessionId := none }

/-- Connection state of a connection that never joined the queue. -/
def clC8n : ClientState := { userId := none, sessionId := none }

/-- A bystander queue entry untouched by a stranger leaving. -/
def wC8 : User := { id := "w", tags := [] }

/-!  Helper lemmas about the embedded definitions. -/

/-- A list with a last element is its front followed by that element. -/
theorem getLast_decomp {α : Type} {q : List α} {u : α} (h : q.getLast? = some u) :
    q = q.dropLast ++ [u] := by
  induction q with
  | nil => simp at h
  | cons a t ih =>
    cases t with
    | nil =>
      simp only [List.getLast?_singleton, Option.some.injEq] at h
      subst h
      simp
    | cons b t2 =>
      rw [List.getLast?_cons_cons] at h
      have h2 := ih h
      rw [List.dropLast_cons₂, List.cons_append]
      exact congrArg (a :: ·) h2

/-- Membership in the first-occurrence deduplication. -/
theorem mem_dedupFirst (a : String) :
    ∀ (l seen : List String), a ∈ dedupFirst seen l ↔ a ∈ l ∧ a ∉ seen := by
  intro l
  induction l with
  | nil => intro seen; simp [dedupFirst]
  | cons b t ih =>
    intro seen
    rw [dedupFirst]
    split_ifs with hb
    · rw [ih seen]
      by_cases hab : a = b
      · subst hab
        simp [hb]
      · simp [hab]
    · rw [List.mem_cons, ih (b :: seen)]
      by_cases hab : a = b
      · subst hab
        simp [hb]
      · simp [hab]

/-- `[...new Set(l)]` has the same members as `l`. -/
theorem mem_setList (a : String) (l : List String) : a ∈ setList l ↔ a ∈ l := by
  rw [setList, mem_dedupFirst]
  simp

/-- Removing an id that occurs nowhere leaves the queue unchanged. -/
theorem removeFromQueue_noop (uid : String) :
    ∀ q : List User, (∀ x ∈ q, x.id ≠ uid) → removeFromQueue uid q = q := by
  intro q
  induction q with
  | nil => intro _; rfl
  | cons u t ih =>
    intro h
    rw [removeFromQueue, if_neg (h u (List.mem_cons_self u t)), ih (fun x hx => h x (List.mem_cons_of_mem _ hx))]

/-- The fold computing the first maximal-score candidate returns the seed or a list element. -/
theorem foldl_best_mem :
    ∀ (ms : List (User × Nat)) (b : User × Nat),
      ms.foldl (fun best x => if best.2 < x.2 then x else best) b ∈ b :: ms := by
  intro ms
  induction ms with
  | nil => intro b; simp
  | cons x t ih =>
    intro b
    rw [List.foldl_cons]
    rcases List.mem_cons.1 (ih (if b.2 < x.2 then x else b)) with h1 | h1
    · rw [h1]
      split_ifs with hc
      · exact List.mem_cons_of_mem _ (List.mem_cons_self _ _)
      · exact List.mem_cons_self _ _
    · exact List.mem_cons_of_mem _ (List.mem_cons_of_mem _ h1)

/-- `chooseBest` returns an element of its input list. -/
theorem chooseBest_mem {l : List (User × Nat)} {p : User × Nat} (h : chooseBest l = some p) :
    p ∈ l := by
  cases l with
  | nil => simp [chooseBest] at h
  | cons m ms =>
    simp only [chooseBest, Option.some.injEq] at h
    rw [← h]
    exact foldl_best_mem ms m

/-- Every candidate held by the drain loop passed the self and block checks. -/
theorem drainLoop_held_sound (bp : List (String × String)) (user : User) :
    ∀ (fuel : Nat) (q : List User) (ms : List (User × Nat)),
      (∀ p ∈ ms, p.1.id ≠ user.id ∧ isBlocked bp user.id p.1.id = false) →
      ∀ p ∈ (drainLoop bp user fuel q ms).2,
        p.1.id ≠ user.id ∧ isBlocked bp user.id p.1.id = false := by
  intro fuel
  induction fuel with
  | zero => intro q ms hms p hp; exact hms p hp
  | succ n ih =>
    intro q ms hms p hp
    simp only [drainLoop] at hp
    split at hp
    · exact hms p hp
    · rename_i pm hpm
      split_ifs at hp with h1 h2
      · exact ih _ _ hms p hp
      · refine ih _ _ ?_ p hp
        intro p2 hp2
        rcases List.mem_append.1 hp2 with hin | hin
        · exact hms p2 hin
        · push_neg at h1
          rcases List.mem_singleton.1 hin with rfl
          exact ⟨h1.1, by simpa using h1.2⟩
      · exact ih _ _ hms p hp

/-- The drain loop neither loses nor duplicates entries: held candidates plus the
left-behind queue are a permutation of the original queue plus prior candidates. -/
theorem drainLoop_perm (bp : List (String × String)) (user : User) :
    ∀ (fuel : Nat) (q : List User) (ms : List (User × Nat)),
      ((drainLoop bp user fuel q ms).1 ++
          ((drainLoop bp user fuel q ms).2).map Prod.fst).Perm (q ++ ms.map Prod.fst) := by
  intro fuel
  induction fuel with
  | zero => intro q ms; simp [drainLoop]
  | succ n ih =>
    intro q ms
    simp only [drainLoop]
    split
    · exact List.Perm.refl _
    · rename_i pm hpm
      have hlast : q.getLast? = some pm := hpm
      have hdecomp : q = q.dropLast ++ [pm] := getLast_decomp hlast
      have haddq : addToQueue pm (getFromQueue q).2 = q := by
        rw [addToQueue]
        exact hdecomp.symm
      split_ifs with h1 h2
      · rw [haddq]
        exact ih q ms
      · have h3 := ih (getFromQueue q).2 (ms ++ [(pm, calculateMatchScore user.tags pm.tags)])
        simp only [List.map_append, List.map_cons, List.map_nil] at h3
        refine h3.trans ?_
        refine (List.Perm.append_left _ List.perm_append_comm).trans ?_
        rw [← List.append_assoc]
        have hq2 : (getFromQueue q).2 ++ [pm] = q := hdecomp.symm
        rw [hq2]
      · rw [haddq]
        exact ih q ms

/-- The queue component of `findMatch` is the queue the drain loop leaves. -/
theorem findMatch_snd (bp : List (String × String)) (user : User) (q : List User) :
    (findMatch bp user q).2 = (drainLoop bp user q.length q []).1 := by
  unfold findMatch
  split <;> rfl

/-- A returned match was one of the held candidates. -/
theorem findMatch_some_mem (bp : List (String × String)) (u : User) (q : List User) (e : User)
    (h : (findMatch bp u q).1 = some e) :
    ∃ s, (e, s) ∈ (drainLoop bp u q.length q []).2 := by
  unfold findMatch at h
  split at h
  · rename_i p hcb
    simp only [Option.some.injEq] at h
    refine ⟨p.2, ?_⟩
    rw [← h]
    exact chooseBest_mem hcb
  · simp at h

/-- A queue entry that is the candidate itself or blocked is still in the queue
`findMatch` leaves behind. -/
theorem findMatch_mem_queue (bp : List (String × String)) (u : User) (q : List User) (x : User)
    (hx : x ∈ q) (hskip : x.id = u.id ∨ isBlocked bp u.id x.id = true) :
    x ∈ (findMatch bp u q).2 := by
  have hperm := drainLoop_perm bp u q.length q []
  have hx2 : x ∈ (drainLoop bp u q.length q []).1 ++
      ((drainLoop bp u q.length q []).2).map Prod.fst := by
    apply hperm.mem_iff.2
    simpa using hx
  rw [findMatch_snd]
  rcases List.mem_append.1 hx2 with h1 | h1
  · exact h1
  · exfalso
    obtain ⟨p, hpmem, hpeq⟩ := List.mem_map.1 h1
    have hP := drainLoop_held_sound bp u q.length q [] (by simp) p hpmem
    rw [hpeq] at hP
    rcases hskip with hs | hs
    · exact hP.1 hs
    · rw [hP.2] at hs
      simp at hs

/-!  Claim theorems. -/

/-- Claim C1, evaluated at the failing input: with candidate `uC1` (tags a, b) and
queue `[e1C1, e2C1]` where both entries have positive tag-overlap score, `findMatch`
returns `e2C1` but leaves the queue empty — the held, not-chosen candidate `e1C1`
(score 1 > 0) is dropped instead of being re-enqueued, so the queue length after the
call is 0, not `2 - 1 = 1`. -/
theorem c1_held_candidate_dropped :
    (findMatch [] uC1 [e1C1, e2C1]).1 = some e2C1 ∧
    (findMatch [] uC1 [e1C1, e2C1]).2 = [] ∧
    0 < calculateMatchScore uC1.tags e1C1.tags ∧
    [e1C1, e2C1].length = 2 := by decide

/-- Claim C2: `findMatch` never returns the candidate itself and never returns a
user blocked in either direction; moreover every queue entry that is the candidate
itself or blocked is still present in the queue `findMatch` leaves behind. -/
theorem c2_no_self_no_blocked (bp : List (String × String)) (u : User) (q : List User)
    (e : User) (h : (findMatch bp u q).1 = some e) :
    e.id ≠ u.id ∧ isBlocked bp u.id e.id = false ∧
      ∀ x ∈ q, x.id = u.id ∨ isBlocked bp u.id x.id = true → x ∈ (findMatch bp u q).2 := by
  obtain ⟨s, hmem⟩ := findMatch_some_mem bp u q e h
  have hP := drainLoop_held_sound bp u q.length q [] (by simp) (e, s) hmem
  exact ⟨hP.1, hP.2, fun x hx hskip => findMatch_mem_queue bp u q x hx hskip⟩

/-- Witness for C2 at a concrete input: `findMatch` on queue `[eC2]` for candidate
`uC2` returns `eC2`, which is neither the candidate nor blocked. -/
theorem c2_witness :
    eC2.id ≠ uC2.id ∧ isBlocked [] uC2.id eC2.id = false ∧
      ∀ x ∈ [eC2], x.id = uC2.id ∨ isBlocked [] uC2.id x.id = true →
        x ∈ (findMatch [] uC2 [eC2]).2 :=
  c2_no_self_no_blocked [] uC2 [eC2] eC2 (by decide)

/-- Claim C3: `getSharedTags` returns exactly the elements of `tags1` whose
lowercased form occurs among the lowercased `tags2`, in `tags1` order with `tags1`
casing; on `[CS, Math]` and `[math, bio]` it returns `["Math"]`; and every session
`handleJoinQueue` creates starts with exactly one message, a system message. -/
theorem c3_shared_tags :
    (∀ tags1 tags2 : List String,
        getSharedTags tags1 tags2 =
          tags1.filter (fun tag => decide (toLowerCase tag ∈ tags2.map toLowerCase))) ∧
    getSharedTags ["CS", "Math"] ["math", "bio"] = ["Math"] ∧
    (∀ (bp : List (String × String)) (sid mid : String) (now : Nat) (u : User)
        (q : List User) (s : Session) (q2 : List User),
        handleJoinQueue bp sid mid now u q = (some s, q2) →
        s.messages.length = 1 ∧
          (s.messages.filter (fun m => decide (m.type = "system"))).length = 1) := by
  refine ⟨?_, by decide, ?_⟩
  · intro tags1 tags2
    unfold getSharedTags
    apply List.filter_congr
    intro tag htag
    rw [decide_eq_decide, List.mem_filter]
    simp only [decide_eq_true_iff]
    rw [mem_setList, mem_setList]
    constructor
    · rintro ⟨_, h2⟩
      exact h2
    · intro h2
      exact ⟨List.mem_map_of_mem toLowerCase htag, h2⟩
  · intro bp sid mid now u q s q2 h
    unfold handleJoinQueue at h
    cases hm : (findMatch bp u q).1 with
    | none =>
      rw [hm] at h
      simp at h
    | some m =>
      rw [hm] at h
      simp only [Prod.mk.injEq, Option.some.injEq] at h
      obtain ⟨hs, _⟩ := h
      subst hs
      simp [matchedMessage]

/-- Witness for C3 at a concrete input: the session created from `uC3` and `vC3`
has exactly one message and it is a system message. -/
theorem c3_witness :
    sessionC3.messages.length = 1 ∧
      (sessionC3.messages.filter (fun m => decide (m.type = "system"))).length = 1 :=
  c3_shared_tags.2.2 [] "s" "m" 0 uC3 [vC3] sessionC3 [] (by decide)

/-- Claim C4: `moderateContent` flags exactly when a personal-info pattern matches
the input or the cleaned text differs from it; the phone example is flagged for any
cleaner; a profanity-free input that cleans to itself is not flagged and keeps its
content; and `handleChatMessage` always appends and forwards the cleaned message,
flagged or not. -/
theorem c4_moderation :
    (∀ (clean : String → String) (content : String),
        ((moderateContent clean content).flagged = true ↔
          (personalInfoMatched content = true ∨ clean content ≠ content))) ∧
    (∀ clean : String → String,
        (moderateContent clean "call me at 555-123-4567").flagged = true) ∧
    (∀ clean : String → String, clean "hello friend" = "hello friend" →
        (moderateContent clean "hello friend").flagged = false ∧
          (moderateContent clean "hello friend").content = "hello friend") ∧
    (∀ (clean : String → String) (now : Nat) (session : Session) (senderId : String)
        (payload : Message),
        (handleChatMessage clean now session senderId payload).1.messages =
          session.messages ++
            [{ payload with content := clean payload.content, timestamp := now }] ∧
        (handleChatMessage clean now session senderId payload).2.1 =
          { payload with content := clean payload.content, timestamp := now }) := by
  refine ⟨?_, ?_, ?_, ?_⟩
  · intro clean content
    simp [moderateContent, bne_iff_ne]
  · intro clean
    have h : personalInfoMatched "call me at 555-123-4567" = true := by decide
    simp [moderateContent, h]
  · intro clean hc
    have h : personalInfoMatched "hello friend" = false := by decide
    constructor
    · simp [moderateContent, h, hc]
    · simp [moderateContent, hc]
  · intro clean now session senderId payload
    exact ⟨rfl, rfl⟩

/-- Witness for C4 with the identity cleaner: `"hello friend"` is not flagged and
its content is unchanged. -/
theorem c4_witness :
    (moderateContent id "hello friend").flagged = false ∧
      (moderateContent id "hello friend").content = "hello friend" :=
  c4_moderation.2.2.1 id rfl

/-- Counterexample to claim C5: user `u1` already has a queue entry; re-joining via
`handleJoinQueue` does not remove it, and with no matchable partner the handler
appends a second entry, leaving two queue entries with id `u1`. -/
theorem c5_counterexample :
    ((handleJoinQueue [] "s" "m" 0 uC5 [uC5]).2.filter
      (fun x => decide (x.id = "u1"))).length = 2 := by decide

/-- Claim C5 as amended: `handleJoinQueue` performs no implicit replacement — when
`findMatch` misses, the candidate is appended to the queue while any prior entry
with the same id is kept, so the queue then holds at least two entries with that id. -/
theorem c5_no_dedup (bp : List (String × String)) (sid mid : String) (now : Nat)
    (u : User) (q : List User) (h1 : (findMatch bp u q).1 = none)
    (h2 : ∃ x ∈ q, x.id = u.id) :
    2 ≤ ((handleJoinQueue bp sid mid now u q).2.filter
      (fun x => decide (x.id = u.id))).length := by
  obtain ⟨x, hx, hxid⟩ := h2
  have hq2 : (handleJoinQueue bp sid mid now u q).2 = (findMatch bp u q).2 ++ [u] := by
    unfold handleJoinQueue
    rw [h1]
  rw [hq2, List.filter_append, List.length_append]
  have hu : List.filter (fun x => decide (x.id = u.id)) [u] = [u] := by simp
  rw [hu]
  have hxq : x ∈ (findMatch bp u q).2 := findMatch_mem_queue bp u q x hx (Or.inl hxid)
  have hxf : x ∈ (findMatch bp u q).2.filter (fun x => decide (x.id = u.id)) :=
    List.mem_filter.2 ⟨hxq, by simp [hxid]⟩
  have hpos := List.length_pos_of_mem hxf
  simp only [List.length_singleton]
  omega

/-- Witness for the amended C5 at a concrete input: re-joining `u1` against a queue
already holding `u1` leaves two entries with id `u1`. -/
theorem c5_witness :
    2 ≤ ((handleJoinQueue [] "s" "m" 0 uC5 [uC5]).2.filter
      (fun x => decide (x.id = uC5.id))).length :=
  c5_no_dedup [] "s" "m" 0 uC5 [uC5] (by decide) ⟨uC5, by decide, rfl⟩

/-- Counterexample to claim C6: on `sessionC6`, whose stored video request is
already pending with requester `A`, a new `video_request` from `B` overwrites the
record — the stored `requesterId` changes instead of being left unchanged. -/
theorem c6_counterexample :
    sessionC6.videoRequested = some { requesterId := "A", status := "pending" } ∧
    (handleVideoRequest sessionC6 "B" "offer-sdp").1.videoRequested ≠
      sessionC6.videoRequested := by decide

/-- Claim C6 as amended: `handleVideoRequest` performs no already-pending check —
for every session, including one whose request is already pending, it overwrites
the stored record with the new requester and status pending, and forwards the
offer payload to the peer. -/
theorem c6_overwrites (session : Session) (requesterId offer : String) :
    (handleVideoRequest session requesterId offer).1.videoRequested =
      some { requesterId := requesterId, status := "pending" } ∧
    (handleVideoRequest session requesterId offer).2 = (requesterId, offer) :=
  ⟨rfl, rfl⟩

/-- Counterexample to claim C7: user `u1` joins an empty queue (no match, so they
are enqueued), then leaves the queue — the queue is empty at firing time — yet the
fired 60-second timeout still emits the no-match notice, because the callback only
checks that the connection exists and has no `sessionId`. -/
theorem c7_counterexample :
    (handleLeaveQueue (some clC7) (handleJoinQueue [] "s" "m" 0 uC5 []).2).2.1 = [] ∧
    matchingTimeoutFires
      (handleLeaveQueue (some clC7) (handleJoinQueue [] "s" "m" 0 uC5 []).2).1 = true := by
  decide

/-- Claim C7 as amended: the fired timeout emits the notice exactly when the
connection is still registered with no `sessionId`; `handleLeaveQueue` leaves the
connection record unchanged, so leaving the queue does not suppress the notice. -/
theorem c7_stale_timeout_fires (c : ClientState) (q : List User) (uid : String)
    (h1 : c.userId = some uid) (h2 : c.sessionId = none) :
    (handleLeaveQueue (some c) q).1 = some c ∧
    matchingTimeoutFires ((handleLeaveQueue (some c) q).1) = true := by
  simp [handleLeaveQueue, h1, matchingTimeoutFires, h2]

/-- Witness for the amended C7 at a concrete input. -/
theorem c7_witness :
    (handleLeaveQueue (some clC7) []).1 = some clC7 ∧
    matchingTimeoutFires ((handleLeaveQueue (some clC7) []).1) = true :=
  c7_stale_timeout_fires clC7 [] "u1" rfl rfl

/-- Counterexample to claim C8: a connection that never joined (no `userId`) sends
`leave_queue`; the queue is untouched but no `queue_left` response is sent at all —
the handler returns early instead of acknowledging with success. -/
theorem c8_counterexample :
    (handleLeaveQueue (some clC8n) [wC8]).2.1 = [wC8] ∧
    (handleLeaveQueue (some clC8n) [wC8]).2.2 = false := by decide

/-- Claim C8 as amended: for a connection that has a `userId` (joined at least
once) but is not in the queue, `leave_queue` is a no-op on the queue and still
sends `queue_left {success: true}`; a connection that never joined gets no response. -/
theorem c8_leave_idempotent (c : ClientState) (q : List User) (uid : String)
    (h1 : c.userId = some uid) (h2 : ∀ x ∈ q, x.id ≠ uid) :
    (handleLeaveQueue (some c) q).2.1 = q ∧
    (handleLeaveQueue (some c) q).2.2 = true := by
  simp [handleLeaveQueue, h1, removeFromQueue_noop uid q h2]

/-- Witness for the amended C8 at a concrete input. -/
theorem c8_witness :
    (handleLeaveQueue (some clC8) [wC8]).2.1 = [wC8] ∧
    (handleLeaveQueue (some clC8) [wC8]).2.2 = true :=
  c8_leave_idempotent clC8 [wC8] "u1" rfl (by decide)

/-- Counterexample to claim C9: the Redis backend pushes with `lPush` and pops with
`rPop`, so after pushing `e1C1` then `e2C1` the pop returns `e1C1`, the oldest entry
— not the most-recently-pushed `e2C1` that the in-memory backend returns. The LIFO
policy is not preserved across backends. -/
theorem c9_counterexample :
    (getFromQueueRedis (addToQueueRedis e2C1 (addToQueueRedis e1C1 []))).1 = some e1C1 ∧
    e1C1 ≠ e2C1 ∧
    (getFromQueue (addToQueue e2C1 (addToQueue e1C1 []))).1 = some e2C1 := by decide

/-- Claim C9 as amended: the in-memory backend pushes and pops at the same (back)
end, so a pop after a push returns the most-recently-pushed entry (LIFO); the Redis
backend pushes at the head and pops at the tail, so on a nonempty queue the pushed
entry is not returned — the pop returns the old tail (FIFO). -/
theorem c9_memory_lifo_redis_fifo :
    (∀ (u : User) (q : List User), (getFromQueue (addToQueue u q)).1 = some u) ∧
    (∀ (u : User) (q : List User), q ≠ [] →
      (getFromQueueRedis (addToQueueRedis u q)).1 = q.getLast?) := by
  constructor
  · intro u q
    simp [getFromQueue, addToQueue, List.getLast?_concat]
  · intro u q hq
    cases q with
    | nil => exact absurd rfl hq
    | cons b t => simp [getFromQueueRedis, addToQueueRedis, List.getLast?_cons_cons]

/-- Witness for the amended C9 at a concrete input. -/
theorem c9_witness :
    (getFromQueueRedis (addToQueueRedis e2C1 [e1C1])).1 = ([e1C1] : List User).getLast? :=
  c9_memory_lifo_redis_fifo.2 e2C1 [e1C1] (by simp)

/-- Claim C10: `POST /api/report` appends exactly one report built from the request
(for any session id, validated against nothing) and responds success; a missing
`messages` field is stored as the empty list. -/
theorem c10_report :
    ∀ (reportId : String) (now : Nat) (reqIp sid reason : String)
      (messages : Option (List Message)) (reports : List Report),
      (postReport reportId now reqIp sid reason messages reports).2 = true ∧
      (postReport reportId now reqIp sid reason messages reports).1 =
        reports ++ [{ id := reportId, sessionId := sid, reason := reason,
                      messages := messages.getD [], timestamp := now, ip := reqIp }] ∧
      (postReport reportId now reqIp sid reason none reports).1 =
        reports ++ [{ id := reportId, sessionId := sid, reason := reason,
                      messages := [], timestamp := now, ip := reqIp }] ∧
      (postReport reportId now reqIp sid reason messages reports).1.length =
        reports.length + 1 := by
  intro reportId now reqIp sid reason messages reports
  refine ⟨rfl, rfl, rfl, ?_⟩
  simp [postReport]

end StudyBuddy
